import Mathlib

/-!
Verification of the `export-vuln-status-report-org` Go program
(`src/export-vuln-status-report-org/main.go`).

The program submits an asynchronous export job to the Snyk API, polls its
status, downloads the resulting CSV chunks, parses them, and aggregates
per-severity / per-status counts into a JSON report.

This file gives a shallow embedding of the pure core of that program:

* `ReportStats` / `ReportDetail` mirror the Go structs of the same names.
* `CSVRecord` is a Go `map[string]string` built by the insertion loop in
  `processCSV`; we model it as the association list of the insertions in
  order, with a last-write-wins lookup (`recordFind`), which is exactly the
  observable behaviour of a Go map written to in a loop.
* `bumpStats` / `aggregateRecord` embed the aggregation switch in `main`
  (lines 174-203 of main.go).
* `checkExportStatus` embeds the polling loop (lines 339-386): the network
  is abstracted as the list of successive poll responses, and the `Nat`
  accumulator counts the executed `time.Sleep(1 * time.Second)` calls.
* `processCSVGo` embeds `processCSV` (lines 454-483) over rows already
  lexed by `encoding/csv`; the reader's default `FieldsPerRecord = 0`
  behaviour (every record after the first must have the same number of
  fields as the first, otherwise `Read` returns `ErrFieldCount`) is part
  of the embedding, since `processCSV` aborts on any read error.
* `getConfig` embeds the argument validation (lines 213-261), with
  `validDate` modelling a successful Go `time.Parse("2006-01-02", s)`.
* `downloadCSVFile` embeds lines 424-452, with the HTTP response and the
  filesystem outcomes as explicit parameters.
* `processChunksFrom` / `runChunkPhase` embed the chunk loop of `main`
  (lines 158-211), including the vestigial `allRecords` slice that is
  declared and printed but never appended to.
-/

namespace SnykExport

/-- One severity bucket of the report, mirroring Go `ReportStats`. -/
structure ReportStats where
  Total : Nat
  Open : Nat
  Ignored : Nat
  Resolved : Nat
deriving DecidableEq, Repr

/-- The four severity buckets, mirroring Go `ReportDetail`. -/
structure ReportDetail where
  Critical : ReportStats
  High : ReportStats
  Medium : ReportStats
  Low : ReportStats
deriving DecidableEq, Repr

/-- Zero-valued `ReportStats`, the Go zero value `ReportStats{}`. -/
def initialStats : ReportStats := { Total := 0, Open := 0, Ignored := 0, Resolved := 0 }

/-- The report accumulator as initialised at main.go lines 147-152. -/
def initialReportDetail : ReportDetail :=
  { Critical := initialStats, High := initialStats, Medium := initialStats, Low := initialStats }

/-- A parsed CSV row: the Go `CSVRecord = map[string]string`, represented as
the list of `record[k] = v` insertions performed by `processCSV`, in order. -/
abbrev CSVRecord := List (String × String)

/-- Lookup in a `CSVRecord` with Go map semantics: the LAST insertion for a
key wins (later `record[headers[i]] = value` writes overwrite earlier ones). -/
def recordFind : CSVRecord → String → Option String
  | [], _ => none
  | (k, v) :: rest, key =>
    match recordFind rest key with
    | some w => some w
    | none => if k = key then some v else none

/-- Go map indexing `record[key]`: the zero value `""` when the key is absent. -/
def recordGetD (record : CSVRecord) (key : String) : String :=
  (recordFind record key).getD ""

/-- The body of `severityProperty.Total++` followed by the status switch
(main.go lines 190-201), applied to the selected severity bucket. -/
def bumpStats (status : String) (s : ReportStats) : ReportStats :=
  let s := { s with Total := s.Total + 1 }
  if status = "Open" then { s with Open := s.Open + 1 }
  else if status = "Ignored" then { s with Ignored := s.Ignored + 1 }
  else if status = "Resolved" then { s with Resolved := s.Resolved + 1 }
  else s

/-- One iteration of the record loop in `main` (lines 174-203): the severity
switch selects a bucket (or none), and the selected bucket is bumped. -/
def aggregateRecord (acc : ReportDetail) (record : CSVRecord) : ReportDetail :=
  let severity := recordGetD record "ISSUE_SEVERITY"
  let status := recordGetD record "ISSUE_STATUS"
  if severity = "Critical" then { acc with Critical := bumpStats status acc.Critical }
  else if severity = "High" then { acc with High := bumpStats status acc.High }
  else if severity = "Medium" then { acc with Medium := bumpStats status acc.Medium }
  else if severity = "Low" then { acc with Low := bumpStats status acc.Low }
  else acc

/-- Aggregating a list of records from a given accumulator, as the record
loop does. -/
def aggregate (records : List CSVRecord) (acc : ReportDetail) : ReportDetail :=
  records.foldl aggregateRecord acc

/-- The sub-counter sum of a bucket never exceeds its total. -/
def statsBounded (s : ReportStats) : Prop :=
  s.Open + s.Ignored + s.Resolved ≤ s.Total

/-! ## Status polling (`checkExportStatus`, main.go lines 339-386) -/

/-- One poll response, as seen by `checkExportStatus` after JSON decoding:
the HTTP status code and `data.attributes.status`.  A status field that is
absent from the JSON decodes to the Go zero value `""`. -/
structure PollResponse where
  statusCode : Nat
  status : String
deriving DecidableEq, Repr

/-- Outcome of the polling loop over a finite list of available responses. -/
inductive PollResult where
  /-- The loop returned `nil` after having slept `sleeps` times. -/
  | ok (sleeps : Nat)
  /-- The loop returned an error with this message. -/
  | fatal (msg : String)
  /-- The supplied responses were exhausted while still `PENDING`
  (the real loop would keep polling). -/
  | exhausted (sleeps : Nat)
deriving DecidableEq, Repr

/-- The duration, in seconds, of each `time.Sleep(1 * time.Second)` in the
polling loop. -/
def pollIntervalSeconds : Nat := 1

/-- Embedding of `checkExportStatus` (main.go lines 339-386) over the list of successive
poll responses, the accumulator counting the sleeps performed so far: a
non-200 response is fatal; `""` / `"STARTED"` / `"FINISHED"` return success;
`"PENDING"` sleeps one interval and re-queries; any other status is fatal
with the upstream status in the message. -/
def checkExportStatus : List PollResponse → Nat → PollResult
  | [], n => .exhausted n
  | r :: rest, n =>
    if r.statusCode ≠ 200 then
      .fatal ("status check failed with status " ++ toString r.statusCode)
    else if r.status = "" ∨ r.status = "STARTED" ∨ r.status = "FINISHED" then
      .ok n
    else if r.status = "PENDING" then
      checkExportStatus rest (n + 1)
    else
      .fatal ("export status is " ++ r.status)

/-- The polling loop as entered by `main`: no sleeps performed yet. -/
def checkExportStatusRun (responses : List PollResponse) : PollResult :=
  checkExportStatus responses 0

/-- A ready-like status: absent/empty, `STARTED`, or `FINISHED`. -/
def readyStatus (s : String) : Prop :=
  s = "" ∨ s = "STARTED" ∨ s = "FINISHED"

instance (s : String) : Decidable (readyStatus s) := by
  unfold readyStatus; infer_instance

/-- The loop succeeds after exactly `k` sleeps: the first `k` responses are
HTTP 200 with status `PENDING` and response `k` is HTTP 200 with a
ready-like status. -/
def succeedsAfter (responses : List PollResponse) (k : Nat) : Prop :=
  (∀ j, j < k → ∃ r, responses.get? j = some r ∧ r.statusCode = 200 ∧ r.status = "PENDING") ∧
  (∃ r, responses.get? k = some r ∧ r.statusCode = 200 ∧ readyStatus r.status)

/-! ## CSV ingestion (`processCSV`, main.go lines 454-483) -/

/-- The record built from one data row (main.go lines 473-478): iterate over
the row's fields in index order, inserting `record[headers[i]] = row[i]` for
every `i` below the header length.  `List.zip` truncates at the shorter list,
which is exactly the set of insertions the Go loop performs, in order. -/
def mkRecord (headers row : List String) : CSVRecord :=
  headers.zip row

/-- The row-reading loop of `processCSV` over rows already lexed by
`encoding/csv`.  The reader is created with default settings, so
`FieldsPerRecord` is `0`: reading the header sets the expected field count
to the header's length, and every later `Read` of a row with a different
field count returns `ErrFieldCount`, which `processCSV` turns into an
`error reading CSV row` failure for the whole file. -/
def processRows (headers : List String) : List (List String) → Except String (List CSVRecord)
  | [] => .ok []
  | row :: rest =>
    if row.length ≠ headers.length then
      .error "error reading CSV row: wrong number of fields"
    else
      match processRows headers rest with
      | .error e => .error e
      | .ok recs => .ok (mkRecord headers row :: recs)

/-- Embedding of `processCSV` (main.go lines 454-483): the first lexed row is the header,
the remaining rows become records. An empty input fails reading the header. -/
def processCSVGo : List (List String) → Except String (List CSVRecord)
  | [] => .error "error reading CSV header: EOF"
  | headers :: dataRows => processRows headers dataRows

/-! ## Configuration (`getConfig`, main.go lines 213-261) -/

/-- The Go `Config` struct. -/
structure Config where
  SnykAPIBaseURL : String
  SnykOrgID : String
  SnykAPIKey : String
  APIVersion : String
  ExportID : String
  FromDate : String
  ToDate : String
deriving DecidableEq, Repr

/-- The distinct `os.Exit(1)` paths of `getConfig`, by their error message. -/
inductive ConfigError where
  | orgIDRequired
  | dateFromRequired
  | dateFromInvalid (s : String)
  | dateToRequired
  | dateToInvalid (s : String)
  | tokenMissing
deriving DecidableEq, Repr

/-- Days in a month of the proleptic Gregorian calendar, as used by Go's
`time` package when validating a parsed date. -/
def daysInMonth (year month : Nat) : Nat :=
  if month = 2 then
    if (year % 4 = 0 ∧ year % 100 ≠ 0) ∨ year % 400 = 0 then 29 else 28
  else if month = 4 ∨ month = 6 ∨ month = 9 ∨ month = 11 then 30
  else 31

/-- Numeric value of a decimal digit character. -/
def digitVal (c : Char) : Nat := c.toNat - 48

/-- Models a successful Go `time.Parse("2006-01-02", s)`: exactly the shape
`DDDD-DD-DD` with all-digit fields, month in 1..12, and day in
1..daysInMonth (Go rejects out-of-range components such as `2025-02-30`). -/
def validDate (s : String) : Bool :=
  match s.toList with
  | [y1, y2, y3, y4, '-', m1, m2, '-', d1, d2] =>
    y1.isDigit && y2.isDigit && y3.isDigit && y4.isDigit &&
    m1.isDigit && m2.isDigit && d1.isDigit && d2.isDigit &&
    (let y := ((digitVal y1 * 10 + digitVal y2) * 10 + digitVal y3) * 10 + digitVal y4
     let m := digitVal m1 * 10 + digitVal m2
     let d := digitVal d1 * 10 + digitVal d2
     decide (1 ≤ m) && decide (m ≤ 12) && decide (1 ≤ d) && decide (d ≤ daysInMonth y m))
  | _ => false

/-- Embedding of `getConfig` (main.go lines 213-261) over `os.Args` and the `SNYK_TOKEN`
environment variable; each `os.Exit(1)` path becomes the corresponding
`ConfigError`.  Note that the two dates are only validated individually for
format: no comparison between them is ever made. -/
def getConfig (args : List String) (snykToken : String) : Except ConfigError Config :=
  let org := args.getD 1 ""
  if org = "" then .error .orgIDRequired
  else
    let dateFrom := args.getD 2 ""
    if dateFrom = "" then .error .dateFromRequired
    else if ¬ validDate dateFrom then .error (.dateFromInvalid dateFrom)
    else
      let dateTo := args.getD 3 ""
      if dateTo = "" then .error .dateToRequired
      else if ¬ validDate dateTo then .error (.dateToInvalid dateTo)
      else if snykToken = "" then .error .tokenMissing
      else .ok
        { SnykAPIBaseURL := "https://api.snyk.io"
          SnykOrgID := org
          SnykAPIKey := snykToken
          APIVersion := "2024-10-15"
          ExportID := ""
          FromDate := dateFrom ++ "T00:00:00Z"
          ToDate := dateTo ++ "T23:59:59Z" }

/-! ## Export submission (`createExport`, main.go lines 277-337) -/

/-- The JSON body built by `createExport` (main.go lines 280-295). -/
structure ExportRequestBody where
  columns : List String
  dataset : String
  introducedFrom : String
  introducedTo : String
  formats : List String
  dataType : String
deriving DecidableEq, Repr

/-- The request body `createExport` submits for a given configuration. -/
def createExportRequest (config : Config) : ExportRequestBody :=
  { columns := ["PROJECT_NAME", "ISSUE_SEVERITY", "SCORE", "PROBLEM_TITLE",
                "FIRST_INTRODUCED", "PRODUCT_NAME", "ISSUE_URL", "ISSUE_STATUS"]
    dataset := "issues"
    introducedFrom := config.FromDate
    introducedTo := config.ToDate
    formats := ["csv"]
    dataType := "resource" }

/-! ## Chunk download (`downloadCSVFile`, main.go lines 424-452) -/

/-- The HTTP response to the chunk `GET`, after a successful body read. -/
structure ChunkHTTPResponse where
  statusCode : Nat
  body : String
deriving DecidableEq, Repr

/-- Embedding of `downloadCSVFile` (main.go lines 424-452).  The network and filesystem
are explicit parameters: `response` is the `http.Get` outcome, `dirExists`
whether `./csv` already exists, `mkdirOk` whether `os.MkdirAll` would
succeed, and `writeOk` whether `os.WriteFile` would succeed.  The write
result is discarded by the source (`_ = os.WriteFile(...)`), so `writeOk`
is deliberately unused. -/
def downloadCSVFile (response : Except String ChunkHTTPResponse)
    (dirExists mkdirOk writeOk : Bool) : Except String String :=
  match response with
  | .error e => .error ("error downloading CSV: " ++ e)
  | .ok r =>
    if r.statusCode ≠ 200 then
      .error ("CSV download failed with status " ++ toString r.statusCode)
    else if ¬ dirExists ∧ ¬ mkdirOk then
      .error "failed to create directory ./csv"
    else
      let _unusedWrite := writeOk
      .ok r.body

/-! ## The chunk loop of `main` (lines 158-211) -/

/-- What one iteration of the chunk loop observes for one export result:
its download failed, its parse failed, or it parsed into these records. -/
inductive ChunkOutcome where
  | downloadFailed (msg : String)
  | parseFailed (msg : String)
  | parsed (records : List CSVRecord)
deriving DecidableEq

/-- The mutable state of `main` during the chunk loop: the report being
accumulated, the warnings logged so far, and the `allRecords` slice, which
the source declares and prints but never appends to. -/
structure LoopState where
  report : ReportDetail
  warnings : List String
  allRecords : List CSVRecord
deriving DecidableEq

/-- The warning `main` logs when chunk `i` (1-based) fails to download. -/
def warnDownload (i : Nat) (msg : String) : String :=
  "Warning: Failed to download CSV file " ++ toString i ++ ": " ++ msg

/-- The warning `main` logs when chunk `i` (1-based) fails to parse. -/
def warnProcess (i : Nat) (msg : String) : String :=
  "Warning: Failed to process CSV file " ++ toString i ++ ": " ++ msg

/-- The chunk loop of `main` (lines 158-206), starting at 1-based chunk
index `i`: a failed download or parse logs a warning and `continue`s; a
parsed chunk folds its records through the aggregation switch. -/
def processChunksFrom (i : Nat) : List ChunkOutcome → LoopState → LoopState
  | [], st => st
  | .downloadFailed msg :: rest, st =>
    processChunksFrom (i + 1) rest { st with warnings := st.warnings ++ [warnDownload i msg] }
  | .parseFailed msg :: rest, st =>
    processChunksFrom (i + 1) rest { st with warnings := st.warnings ++ [warnProcess i msg] }
  | .parsed records :: rest, st =>
    processChunksFrom (i + 1) rest { st with report := aggregate records st.report }

/-- What `main` produces after the chunk loop: the report passed to
`saveReport`, the warnings logged, the number printed by
`fmt.Printf("Total records processed: %d", len(allRecords))`, and the
process exit code (the loop has no fatal path, so `main` falls through to
a normal exit). -/
structure RunResult where
  report : ReportDetail
  warnings : List String
  totalRecordsPrinted : Nat
  exitCode : Nat
deriving DecidableEq

/-- The chunk phase of `main` (lines 144-211), entered once the export
metadata downloaded successfully. -/
def runChunkPhase (chunks : List ChunkOutcome) : RunResult :=
  let st := processChunksFrom 1 chunks
    { report := initialReportDetail, warnings := [], allRecords := [] }
  { report := st.report
    warnings := st.warnings
    totalRecordsPrinted := st.allRecords.length
    exitCode := 0 }

/-- The records contributed by the chunks that downloaded and parsed
successfully, in order. -/
def chunkRecords : List ChunkOutcome → List CSVRecord
  | [] => []
  | .parsed records :: rest => records ++ chunkRecords rest
  | _ :: rest => chunkRecords rest

/-- The warning a failing chunk at 1-based index `i` produces, `none` for a
successful chunk. -/
def failWarning (i : Nat) : ChunkOutcome → Option String
  | .downloadFailed msg => some (warnDownload i msg)
  | .parseFailed msg => some (warnProcess i msg)
  | .parsed _ => none

/-- The warnings the chunk loop emits, starting at 1-based index `i`. -/
def chunkWarnings (i : Nat) : List ChunkOutcome → List String
  | [] => []
  | c :: rest =>
    match failWarning i c with
    | some w => w :: chunkWarnings (i + 1) rest
    | none => chunkWarnings (i + 1) rest

/-- A sample parsed record: one `High` / `Open` issue row. -/
def demoRec : CSVRecord := [("ISSUE_SEVERITY", "High"), ("ISSUE_STATUS", "Open")]

/-- Observation: the numeric value YYYYMMDD of a well-formed date string,
used to compare two calendar dates (for valid dates this order coincides
with chronological order). -/
def dateNum (s : String) : Nat :=
  match s.toList with
  | [y1, y2, y3, y4, '-', m1, m2, '-', d1, d2] =>
    ((((digitVal y1 * 10 + digitVal y2) * 10 + digitVal y3) * 10 + digitVal y4) * 100 +
        digitVal m1 * 10 + digitVal m2) * 100 +
      digitVal d1 * 10 + digitVal d2
  | _ => 0

/-! ## Helper lemmas -/

theorem validDate_ne_empty (s : String) (h : validDate s = true) : s ≠ "" := by
  intro heq
  subst heq
  exact absurd h (by decide)

theorem getConfig_ok (prog org d1 d2 token : String) (horg : org ≠ "") (htok : token ≠ "")
    (h1 : validDate d1 = true) (h2 : validDate d2 = true) :
    getConfig [prog, org, d1, d2] token = .ok
      { SnykAPIBaseURL := "https://api.snyk.io", SnykOrgID := org, SnykAPIKey := token,
        APIVersion := "2024-10-15", ExportID := "", FromDate := d1 ++ "T00:00:00Z",
        ToDate := d2 ++ "T23:59:59Z" } := by
  have hd1 : d1 ≠ "" := validDate_ne_empty d1 h1
  have hd2 : d2 ≠ "" := validDate_ne_empty d2 h2
  simp [getConfig, List.getD, horg, hd1, hd2, htok, h1, h2]

theorem processChunksFrom_allRecords (cs : List ChunkOutcome) :
    ∀ i st, (processChunksFrom i cs st).allRecords = st.allRecords := by
  induction cs with
  | nil => intro i st; rfl
  | cons c rest ih =>
    intro i st
    cases c <;> simp [processChunksFrom, ih]

theorem processChunksFrom_report (cs : List ChunkOutcome) :
    ∀ i st, (processChunksFrom i cs st).report = aggregate (chunkRecords cs) st.report := by
  induction cs with
  | nil => intro i st; rfl
  | cons c rest ih =>
    intro i st
    cases c <;> simp [processChunksFrom, chunkRecords, ih, aggregate, List.foldl_append]

theorem processChunksFrom_warnings (cs : List ChunkOutcome) :
    ∀ i st, (processChunksFrom i cs st).warnings = st.warnings ++ chunkWarnings i cs := by
  induction cs with
  | nil => intro i st; simp [processChunksFrom, chunkWarnings]
  | cons c rest ih =>
    intro i st
    cases c <;> simp [processChunksFrom, chunkWarnings, failWarning, ih]

theorem chunkRecords_append (xs ys : List ChunkOutcome) :
    chunkRecords (xs ++ ys) = chunkRecords xs ++ chunkRecords ys := by
  induction xs with
  | nil => simp [chunkRecords]
  | cons c rest ih => cases c <;> simp [chunkRecords, ih]

theorem chunkWarnings_append (xs : List ChunkOutcome) :
    ∀ i ys, chunkWarnings i (xs ++ ys) = chunkWarnings i xs ++ chunkWarnings (i + xs.length) ys := by
  induction xs with
  | nil => intro i ys; simp [chunkWarnings]
  | cons c rest ih =>
    intro i ys
    cases c <;> simp [chunkWarnings, failWarning, ih, Nat.add_assoc, Nat.add_comm 1 rest.length]

theorem recordFind_mem (l : CSVRecord) (key v : String) (h : recordFind l key = some v) :
    (key, v) ∈ l := by
  induction l with
  | nil => simp [recordFind] at h
  | cons p rest ih =>
    obtain ⟨k, w⟩ := p
    rw [recordFind] at h
    cases hrest : recordFind rest key with
    | some u =>
      rw [hrest] at h
      exact List.mem_cons_of_mem _ (ih (hrest.trans h))
    | none =>
      rw [hrest] at h
      by_cases hk : k = key
      · simp [hk] at h
        subst hk
        subst h
        exact List.mem_cons_self _ _
      · simp [hk] at h

theorem recordFind_of_not_mem (l : CSVRecord) (key : String)
    (h : key ∉ l.map Prod.fst) : recordFind l key = none := by
  induction l with
  | nil => rfl
  | cons p rest ih =>
    obtain ⟨k, w⟩ := p
    simp only [List.map_cons, List.mem_cons] at h
    push_neg at h
    rw [recordFind, ih h.2]
    exact if_neg (fun heq : k = key => h.1 heq.symm)

theorem recordFind_append (l1 l2 : CSVRecord) (key : String) :
    recordFind (l1 ++ l2) key =
      match recordFind l2 key with
      | some w => some w
      | none => recordFind l1 key := by
  induction l1 with
  | nil =>
    rw [List.nil_append]
    cases h : recordFind l2 key <;> simp [recordFind, h]
  | cons p rest ih =>
    obtain ⟨k, w⟩ := p
    rw [List.cons_append, recordFind, ih, recordFind]
    cases recordFind l2 key <;> cases recordFind rest key <;> simp

theorem processRows_ok_iff (headers : List String) (rows : List (List String))
    (recs : List CSVRecord) :
    processRows headers rows = .ok recs ↔
      ((∀ row ∈ rows, row.length = headers.length) ∧ recs = rows.map (mkRecord headers)) := by
  induction rows generalizing recs with
  | nil =>
    simp only [processRows, List.map_nil]
    constructor
    · intro h
      cases h
      simp
    · intro h
      rw [h.2]
  | cons row rest ih =>
    rw [processRows]
    by_cases hlen : row.length = headers.length
    · simp only [hlen, ne_eq, not_true_eq_false, if_false, ite_false]
      cases hrest : processRows headers rest with
      | error e =>
        simp only []
        constructor
        · intro h; cases h
        · rintro ⟨hall, hrecs⟩
          have : processRows headers rest = .ok (rest.map (mkRecord headers)) :=
            (ih (rest.map (mkRecord headers))).mpr ⟨fun r hr => hall r (List.mem_cons_of_mem _ hr), rfl⟩
          rw [hrest] at this
          cases this
      | ok recs0 =>
        have hihr := (ih recs0).mp hrest
        simp only []
        constructor
        · intro h
          cases h
          exact ⟨fun r hr => by
              rcases List.mem_cons.mp hr with h | h
              · rw [h]; exact hlen
              · exact hihr.1 r h,
            by rw [List.map_cons, hihr.2]⟩
        · rintro ⟨hall, hrecs⟩
          rw [List.map_cons, ← hihr.2] at hrecs
          rw [hrecs]
    · simp only [hlen, ne_eq, not_false_eq_true, if_true, ite_true]
      constructor
      · intro h; cases h
      · rintro ⟨hall, hrecs⟩
        exact absurd (hall row (List.mem_cons_self _ _)) hlen

theorem bumpStats_eq (st : String) (s : ReportStats) :
    bumpStats st s =
      { Total := s.Total + 1,
        Open := s.Open + (if st = "Open" then 1 else 0),
        Ignored := s.Ignored + (if st = "Ignored" then 1 else 0),
        Resolved := s.Resolved + (if st = "Resolved" then 1 else 0) } := by
  by_cases h1 : st = "Open"
  · subst h1; simp [bumpStats]
  · by_cases h2 : st = "Ignored"
    · subst h2; simp [bumpStats]
    · by_cases h3 : st = "Resolved"
      · subst h3; simp [bumpStats]
      · simp [bumpStats, h1, h2, h3]

theorem statsBounded_bumpStats (st : String) (s : ReportStats) (h : statsBounded s) :
    statsBounded (bumpStats st s) := by
  unfold statsBounded at h ⊢
  rw [bumpStats_eq]
  by_cases h1 : st = "Open" <;> by_cases h2 : st = "Ignored" <;> by_cases h3 : st = "Resolved" <;>
    simp [h1, h2, h3] <;> omega

theorem aggregateRecord_bounded (acc : ReportDetail) (rec : CSVRecord)
    (h : statsBounded acc.Critical ∧ statsBounded acc.High ∧
         statsBounded acc.Medium ∧ statsBounded acc.Low) :
    statsBounded (aggregateRecord acc rec).Critical ∧
    statsBounded (aggregateRecord acc rec).High ∧
    statsBounded (aggregateRecord acc rec).Medium ∧
    statsBounded (aggregateRecord acc rec).Low := by
  obtain ⟨h1, h2, h3, h4⟩ := h
  unfold aggregateRecord
  by_cases c1 : recordGetD rec "ISSUE_SEVERITY" = "Critical"
  · simp only [c1, if_true, ite_true]
    exact ⟨statsBounded_bumpStats _ _ h1, h2, h3, h4⟩
  · by_cases c2 : recordGetD rec "ISSUE_SEVERITY" = "High"
    · simp only [c1, c2, if_false, ite_false, if_true, ite_true]
      exact ⟨h1, statsBounded_bumpStats _ _ h2, h3, h4⟩
    · by_cases c3 : recordGetD rec "ISSUE_SEVERITY" = "Medium"
      · simp only [c1, c2, c3, if_false, ite_false, if_true, ite_true]
        exact ⟨h1, h2, statsBounded_bumpStats _ _ h3, h4⟩
      · by_cases c4 : recordGetD rec "ISSUE_SEVERITY" = "Low"
        · simp only [c1, c2, c3, c4, if_false, ite_false, if_true, ite_true]
          exact ⟨h1, h2, h3, statsBounded_bumpStats _ _ h4⟩
        · simp only [c1, c2, c3, c4, if_false, ite_false]
          exact ⟨h1, h2, h3, h4⟩

theorem aggregate_bounded (records : List CSVRecord) :
    ∀ acc, statsBounded acc.Critical ∧ statsBounded acc.High ∧
      statsBounded acc.Medium ∧ statsBounded acc.Low →
    statsBounded (aggregate records acc).Critical ∧
    statsBounded (aggregate records acc).High ∧
    statsBounded (aggregate records acc).Medium ∧
    statsBounded (aggregate records acc).Low := by
  induction records with
  | nil => intro acc h; exact h
  | cons rec rest ih =>
    intro acc h
    have hstep := aggregateRecord_bounded acc rec h
    exact ih (aggregateRecord acc rec) hstep

theorem succeedsAfter_cons_zero (r : PollResponse) (rest : List PollResponse) :
    succeedsAfter (r :: rest) 0 ↔ r.statusCode = 200 ∧ readyStatus r.status := by
  unfold succeedsAfter
  constructor
  · rintro ⟨-, r', hr', h'⟩
    rw [List.get?_cons_zero] at hr'
    cases hr'
    exact h'
  · rintro ⟨h200, hready⟩
    exact ⟨fun j hj => absurd hj (Nat.not_lt_zero j), r, rfl, h200, hready⟩

theorem succeedsAfter_cons_succ (r : PollResponse) (rest : List PollResponse) (k : Nat) :
    succeedsAfter (r :: rest) (k + 1) ↔
      (r.statusCode = 200 ∧ r.status = "PENDING") ∧ succeedsAfter rest k := by
  unfold succeedsAfter
  constructor
  · rintro ⟨hpend, r', hr', h'⟩
    obtain ⟨r0, hr0, h0⟩ := hpend 0 (Nat.succ_pos k)
    rw [List.get?_cons_zero] at hr0
    cases hr0
    rw [List.get?_cons_succ] at hr'
    refine ⟨h0, ?_, r', hr', h'⟩
    intro j hj
    obtain ⟨r1, hr1, h1⟩ := hpend (j + 1) (Nat.succ_lt_succ hj)
    rw [List.get?_cons_succ] at hr1
    exact ⟨r1, hr1, h1⟩
  · rintro ⟨⟨h200, hp⟩, hpend, r', hr', h'⟩
    refine ⟨?_, r', ?_, h'⟩
    · intro j hj
      cases j with
      | zero => exact ⟨r, rfl, h200, hp⟩
      | succ j =>
        obtain ⟨r1, hr1, h1⟩ := hpend j (Nat.lt_of_succ_lt_succ hj)
        exact ⟨r1, by rw [List.get?_cons_succ]; exact hr1, h1⟩
    · rw [List.get?_cons_succ]
      exact hr'

theorem checkExportStatus_ok_iff (responses : List PollResponse) :
    ∀ n m, checkExportStatus responses n = .ok m ↔ (n ≤ m ∧ succeedsAfter responses (m - n)) := by
  induction responses with
  | nil =>
    intro n m
    constructor
    · intro h
      exact PollResult.noConfusion h
    · rintro ⟨-, -, r, hr, -⟩
      simp at hr
  | cons r rest ih =>
    intro n m
    rw [checkExportStatus]
    by_cases h200 : r.statusCode = 200
    · rw [if_neg (not_not_intro h200)]
      by_cases hready : r.status = "" ∨ r.status = "STARTED" ∨ r.status = "FINISHED"
      · rw [if_pos hready]
        constructor
        · intro h
          injection h with hnm
          subst hnm
          exact ⟨Nat.le_refl n, by
            rw [Nat.sub_self]
            exact (succeedsAfter_cons_zero r rest).mpr ⟨h200, hready⟩⟩
        · rintro ⟨hnm, hsa⟩
          cases hk : m - n with
          | zero =>
            have hmn : m = n := by omega
            rw [hmn]
          | succ k =>
            rw [hk] at hsa
            obtain ⟨⟨-, hp⟩, -⟩ := (succeedsAfter_cons_succ r rest k).mp hsa
            rcases hready with h | h | h <;> rw [h] at hp <;> exact absurd hp (by decide)
      · rw [if_neg hready]
        by_cases hpend : r.status = "PENDING"
        · rw [if_pos hpend, ih (n + 1) m]
          constructor
          · rintro ⟨hnm, hsa⟩
            refine ⟨by omega, ?_⟩
            have hsplit : m - n = (m - (n + 1)) + 1 := by omega
            rw [hsplit]
            exact (succeedsAfter_cons_succ r rest _).mpr ⟨⟨h200, hpend⟩, hsa⟩
          · rintro ⟨hnm, hsa⟩
            cases hk : m - n with
            | zero =>
              rw [hk] at hsa
              exact absurd ((succeedsAfter_cons_zero r rest).mp hsa).2
                (fun hr => hready hr)
            | succ k =>
              rw [hk] at hsa
              obtain ⟨-, hrest⟩ := (succeedsAfter_cons_succ r rest k).mp hsa
              refine ⟨by omega, ?_⟩
              have hk' : m - (n + 1) = k := by omega
              rw [hk']
              exact hrest
        · rw [if_neg hpend]
          constructor
          · intro h
            exact PollResult.noConfusion h
          · rintro ⟨hnm, hsa⟩
            cases hk : m - n with
            | zero =>
              rw [hk] at hsa
              exact absurd ((succeedsAfter_cons_zero r rest).mp hsa).2 hready
            | succ k =>
              rw [hk] at hsa
              exact absurd ((succeedsAfter_cons_succ r rest k).mp hsa).1.2 hpend
    · rw [if_pos h200]
      constructor
      · intro h
        exact PollResult.noConfusion h
      · rintro ⟨hnm, hsa⟩
        cases hk : m - n with
        | zero =>
          rw [hk] at hsa
          exact absurd ((succeedsAfter_cons_zero r rest).mp hsa).1 h200
        | succ k =>
          rw [hk] at hsa
          exact absurd ((succeedsAfter_cons_succ r rest k).mp hsa).1.1 h200

/-! ## Claims -/

/-- C1: each parsed record increments the Total of exactly one severity
bucket iff its ISSUE_SEVERITY is one of the case-sensitive literals
Critical/High/Medium/Low (any other severity changes no counter); within
the selected bucket the Open/Ignored/Resolved sub-counter is additionally
incremented iff ISSUE_STATUS is exactly that literal, and any other status
contributes only to the total; consequently open + ignored + resolved ≤
total in every bucket of the aggregated report. -/
theorem c1_aggregation_severity_status_partition :
    (∀ (acc : ReportDetail) (rec : CSVRecord),
      recordGetD rec "ISSUE_SEVERITY" ≠ "Critical" →
      recordGetD rec "ISSUE_SEVERITY" ≠ "High" →
      recordGetD rec "ISSUE_SEVERITY" ≠ "Medium" →
      recordGetD rec "ISSUE_SEVERITY" ≠ "Low" →
      aggregateRecord acc rec = acc) ∧
    (∀ (acc : ReportDetail) (rec : CSVRecord),
      recordGetD rec "ISSUE_SEVERITY" = "Critical" →
      aggregateRecord acc rec =
        { acc with Critical := bumpStats (recordGetD rec "ISSUE_STATUS") acc.Critical }) ∧
    (∀ (acc : ReportDetail) (rec : CSVRecord),
      recordGetD rec "ISSUE_SEVERITY" = "High" →
      aggregateRecord acc rec =
        { acc with High := bumpStats (recordGetD rec "ISSUE_STATUS") acc.High }) ∧
    (∀ (acc : ReportDetail) (rec : CSVRecord),
      recordGetD rec "ISSUE_SEVERITY" = "Medium" →
      aggregateRecord acc rec =
        { acc with Medium := bumpStats (recordGetD rec "ISSUE_STATUS") acc.Medium }) ∧
    (∀ (acc : ReportDetail) (rec : CSVRecord),
      recordGetD rec "ISSUE_SEVERITY" = "Low" →
      aggregateRecord acc rec =
        { acc with Low := bumpStats (recordGetD rec "ISSUE_STATUS") acc.Low }) ∧
    (∀ (st : String) (s : ReportStats),
      bumpStats st s =
        { Total := s.Total + 1,
          Open := s.Open + (if st = "Open" then 1 else 0),
          Ignored := s.Ignored + (if st = "Ignored" then 1 else 0),
          Resolved := s.Resolved + (if st = "Resolved" then 1 else 0) }) ∧
    (∀ records : List CSVRecord,
      statsBounded (aggregate records initialReportDetail).Critical ∧
      statsBounded (aggregate records initialReportDetail).High ∧
      statsBounded (aggregate records initialReportDetail).Medium ∧
      statsBounded (aggregate records initialReportDetail).Low) := by
  refine ⟨?_, ?_, ?_, ?_, ?_, bumpStats_eq, ?_⟩
  · intro acc rec hc hh hm hl
    simp [aggregateRecord, hc, hh, hm, hl]
  · intro acc rec h
    simp [aggregateRecord, h]
  · intro acc rec h
    simp [aggregateRecord, h]
  · intro acc rec h
    simp [aggregateRecord, h]
  · intro acc rec h
    simp [aggregateRecord, h]
  · intro records
    exact aggregate_bounded records initialReportDetail
      ⟨Nat.le.refl, Nat.le.refl, Nat.le.refl, Nat.le.refl⟩

/-- C1 witness: the spec theorem applied to a concrete High/Open record. -/
theorem c1_aggregation_witness :
    aggregateRecord initialReportDetail demoRec =
      { initialReportDetail with
        High := bumpStats (recordGetD demoRec "ISSUE_STATUS") initialReportDetail.High } :=
  c1_aggregation_severity_status_partition.2.2.1 initialReportDetail demoRec (by decide)

/-- C2 counterexample: with DateFrom = 2025-12-31 strictly after
DateTo = 2025-01-01, `getConfig` does NOT reject the run — it succeeds and
builds the (inverted) normalized range, so the export request would be
submitted.  The claimed from-after-to validation does not exist in the
code. -/
theorem c2_no_order_check_counterexample :
    getConfig ["main", "some-org", "2025-12-31", "2025-01-01"] "token" = .ok
      { SnykAPIBaseURL := "https://api.snyk.io", SnykOrgID := "some-org", SnykAPIKey := "token",
        APIVersion := "2024-10-15", ExportID := "", FromDate := "2025-12-31T00:00:00Z",
        ToDate := "2025-01-01T23:59:59Z" } ∧
    dateNum "2025-01-01" < dateNum "2025-12-31" := by
  exact ⟨rfl, by decide⟩

/-- C2 (amended): `getConfig` validates each date only for YYYY-MM-DD
format and never compares them; for any two valid dates with date-from
strictly after date-to the run is still accepted and the inverted range is
normalized and passed on toward submission. -/
theorem c2_inverted_range_not_rejected (prog org d1 d2 token : String)
    (horg : org ≠ "") (htok : token ≠ "")
    (h1 : validDate d1 = true) (h2 : validDate d2 = true)
    (_hlt : dateNum d2 < dateNum d1) :
    getConfig [prog, org, d1, d2] token = .ok
      { SnykAPIBaseURL := "https://api.snyk.io", SnykOrgID := org, SnykAPIKey := token,
        APIVersion := "2024-10-15", ExportID := "", FromDate := d1 ++ "T00:00:00Z",
        ToDate := d2 ++ "T23:59:59Z" } :=
  getConfig_ok prog org d1 d2 token horg htok h1 h2

/-- C2 witness: an inverted one-day range accepted by `getConfig`. -/
theorem c2_inverted_range_witness :
    getConfig ["go", "org-b", "2025-06-02", "2025-06-01"] "tok" = .ok
      { SnykAPIBaseURL := "https://api.snyk.io", SnykOrgID := "org-b", SnykAPIKey := "tok",
        APIVersion := "2024-10-15", ExportID := "", FromDate := "2025-06-02" ++ "T00:00:00Z",
        ToDate := "2025-06-01" ++ "T23:59:59Z" } :=
  c2_inverted_range_not_rejected "go" "org-b" "2025-06-02" "2025-06-01" "tok"
    (by decide) (by decide) (by decide) (by decide) (by decide)

/-- C3: the `Total records processed` count printed at the end of the run is
the length of `allRecords`, a slice that `main` declares but never appends
to, so it is 0 for EVERY run — it does not equal the number of records
parsed and aggregated (here a run aggregating 1 record still prints 0), and
no requested-vs-processed chunk count is printed either. -/
theorem c3_total_printed_always_zero :
    (∀ chunks : List ChunkOutcome, (runChunkPhase chunks).totalRecordsPrinted = 0) ∧
    (runChunkPhase [ChunkOutcome.parsed [demoRec]]).report.High.Total = 1 ∧
    (chunkRecords [ChunkOutcome.parsed [demoRec]]).length = 1 := by
  refine ⟨?_, by decide, by decide⟩
  intro chunks
  simp [runChunkPhase, processChunksFrom_allRecords]

/-- C4 counterexample: a data row with fewer fields than the header (and
one with more) does NOT yield a partial record — `processCSV` fails for the
whole file, because the Go `encoding/csv` reader with its default
`FieldsPerRecord = 0` setting returns `ErrFieldCount` for any record whose
field count differs from the first record's. -/
theorem c4_short_row_is_error_counterexample :
    processCSVGo [["a", "b"], ["x"]] = .error "error reading CSV row: wrong number of fields" ∧
    processCSVGo [["a", "b"], ["x", "y", "z"]] =
      .error "error reading CSV row: wrong number of fields" := ⟨rfl, rfl⟩

/-- C4 (amended): `processCSV` produces one record per data row in file
order, zipping each row with the header positionally, exactly when every
data row has the same number of fields as the header; a row with fewer or
more fields makes `processCSV` return an error for the whole file. -/
theorem c4_processCSV_zip_uniform_rows (headers : List String) (rows : List (List String))
    (recs : List CSVRecord) :
    processCSVGo (headers :: rows) = .ok recs ↔
      ((∀ row ∈ rows, row.length = headers.length) ∧ recs = rows.map (mkRecord headers)) :=
  processRows_ok_iff headers rows recs

/-- C4 witness: a two-column file parsed into its zipped record. -/
theorem c4_processCSV_witness :
    processCSVGo [["a", "b"], ["x", "y"]] = .ok [[("a", "x"), ("b", "y")]] :=
  (c4_processCSV_zip_uniform_rows ["a", "b"] [["x", "y"]] [[("a", "x"), ("b", "y")]]).mpr
    ⟨by simp, rfl⟩

/-- C5: when the download or the parse of one chunk fails, the loop logs a
warning for that chunk and skips it: the final report equals the report of
the run without that chunk and is exactly the aggregation of the records of
the successful chunks, the logged warnings contain the chunk's warning, and
the run still terminates normally with exit code 0. -/
theorem c5_chunk_failure_resilience (xs ys : List ChunkOutcome) (c : ChunkOutcome) (w : String)
    (hfail : failWarning (xs.length + 1) c = some w) :
    (runChunkPhase (xs ++ c :: ys)).report = (runChunkPhase (xs ++ ys)).report ∧
    (runChunkPhase (xs ++ c :: ys)).report =
      aggregate (chunkRecords (xs ++ ys)) initialReportDetail ∧
    w ∈ (runChunkPhase (xs ++ c :: ys)).warnings ∧
    (runChunkPhase (xs ++ c :: ys)).exitCode = 0 := by
  have hrecords : chunkRecords (xs ++ c :: ys) = chunkRecords (xs ++ ys) := by
    rw [chunkRecords_append, chunkRecords_append]
    cases c with
    | downloadFailed msg => simp [chunkRecords]
    | parseFailed msg => simp [chunkRecords]
    | parsed records => simp [failWarning] at hfail
  have hrep : ∀ cs : List ChunkOutcome,
      (runChunkPhase cs).report = aggregate (chunkRecords cs) initialReportDetail := by
    intro cs
    simp [runChunkPhase, processChunksFrom_report]
  refine ⟨?_, ?_, ?_, rfl⟩
  · rw [hrep, hrep, hrecords]
  · rw [hrep, hrecords]
  · have hw : (runChunkPhase (xs ++ c :: ys)).warnings = chunkWarnings 1 (xs ++ c :: ys) := by
      simp [runChunkPhase, processChunksFrom_warnings]
    have hone : failWarning (1 + xs.length) c = some w := by
      rw [Nat.add_comm]
      exact hfail
    rw [hw, chunkWarnings_append]
    simp [chunkWarnings, hone]

/-- C5 witness: a failing second chunk leaves the one-chunk report intact. -/
theorem c5_chunk_failure_witness :
    (runChunkPhase [ChunkOutcome.parsed [demoRec], ChunkOutcome.downloadFailed "boom"]).report =
      (runChunkPhase [ChunkOutcome.parsed [demoRec]]).report :=
  (c5_chunk_failure_resilience [ChunkOutcome.parsed [demoRec]] []
    (ChunkOutcome.downloadFailed "boom") (warnDownload 2 "boom") rfl).1

/-- C6: the status poller returns success on an HTTP-200 response whose
status is absent/empty, STARTED or FINISHED; on PENDING it performs one
fixed 1-second sleep and re-queries; a non-200 response or any other status
(such as ERROR) is a fatal error reporting the upstream status; and overall
the loop succeeds exactly when, after some prefix of 200/PENDING responses,
a 200 response with a ready-like status is observed. -/
theorem c6_checkExportStatus_spec :
    (∀ (r : PollResponse) (rest : List PollResponse) (n : Nat),
      r.statusCode = 200 → readyStatus r.status → checkExportStatus (r :: rest) n = .ok n) ∧
    (∀ (r : PollResponse) (rest : List PollResponse) (n : Nat),
      r.statusCode = 200 → r.status = "PENDING" →
      checkExportStatus (r :: rest) n = checkExportStatus rest (n + 1)) ∧
    (∀ (r : PollResponse) (rest : List PollResponse) (n : Nat),
      r.statusCode ≠ 200 →
      checkExportStatus (r :: rest) n =
        .fatal ("status check failed with status " ++ toString r.statusCode)) ∧
    (∀ (r : PollResponse) (rest : List PollResponse) (n : Nat),
      r.statusCode = 200 → ¬ readyStatus r.status → r.status ≠ "PENDING" →
      checkExportStatus (r :: rest) n = .fatal ("export status is " ++ r.status)) ∧
    (∀ (responses : List PollResponse) (m : Nat),
      checkExportStatusRun responses = .ok m ↔ succeedsAfter responses m) ∧
    pollIntervalSeconds = 1 := by
  refine ⟨?_, ?_, ?_, ?_, ?_, rfl⟩
  · intro r rest n h200 hready
    have hr : r.status = "" ∨ r.status = "STARTED" ∨ r.status = "FINISHED" := hready
    rw [checkExportStatus, if_neg (not_not_intro h200), if_pos hr]
  · intro r rest n h200 hpend
    have hnr : ¬(r.status = "" ∨ r.status = "STARTED" ∨ r.status = "FINISHED") := by
      rw [hpend]
      decide
    rw [checkExportStatus, if_neg (not_not_intro h200), if_neg hnr, if_pos hpend]
  · intro r rest n h200
    rw [checkExportStatus, if_pos h200]
  · intro r rest n h200 hnready hnp
    have hnr : ¬(r.status = "" ∨ r.status = "STARTED" ∨ r.status = "FINISHED") := hnready
    rw [checkExportStatus, if_neg (not_not_intro h200), if_neg hnr, if_neg hnp]
  · intro responses m
    rw [checkExportStatusRun, checkExportStatus_ok_iff responses 0 m]
    simp

/-- C6 witness: a single FINISHED response returns success with no sleep. -/
theorem c6_checkExportStatus_witness :
    checkExportStatus [⟨200, "FINISHED"⟩] 5 = .ok 5 :=
  c6_checkExportStatus_spec.1 ⟨200, "FINISHED"⟩ [] 5 rfl (Or.inr (Or.inr rfl))

/-- C7: for any valid DateFrom and DateTo, the date range placed in the
export request is the from-day at 00:00:00Z and the to-day at 23:59:59Z. -/
theorem c7_date_normalization (prog org d1 d2 token : String)
    (horg : org ≠ "") (htok : token ≠ "")
    (h1 : validDate d1 = true) (h2 : validDate d2 = true) :
    ∃ cfg, getConfig [prog, org, d1, d2] token = .ok cfg ∧
      (createExportRequest cfg).introducedFrom = d1 ++ "T00:00:00Z" ∧
      (createExportRequest cfg).introducedTo = d2 ++ "T23:59:59Z" :=
  ⟨_, getConfig_ok prog org d1 d2 token horg htok h1 h2, rfl, rfl⟩

/-- C7 witness: the normalization at a concrete year-long range. -/
theorem c7_date_normalization_witness :
    ∃ cfg, getConfig ["go", "org-a", "2025-01-01", "2025-12-31"] "tok" = .ok cfg ∧
      (createExportRequest cfg).introducedFrom = "2025-01-01" ++ "T00:00:00Z" ∧
      (createExportRequest cfg).introducedTo = "2025-12-31" ++ "T23:59:59Z" :=
  c7_date_normalization "go" "org-a" "2025-01-01" "2025-12-31" "tok"
    (by decide) (by decide) (by decide) (by decide)

/-- C8: a PENDING, PENDING, FINISHED sequence of HTTP-200 poll responses
returns success after exactly two poll delays of one second each. -/
theorem c8_pending_pending_finished_two_sleeps :
    checkExportStatusRun [⟨200, "PENDING"⟩, ⟨200, "PENDING"⟩, ⟨200, "FINISHED"⟩] = .ok 2 ∧
    pollIntervalSeconds = 1 := ⟨rfl, rfl⟩

/-- C9: `downloadCSVFile` returns the downloaded bytes to the pipeline
whether or not persisting the local per-chunk CSV copy succeeds — the
`os.WriteFile` error is discarded, so the result is the chunk body and is
independent of the write outcome. -/
theorem c9_write_error_discarded (r : ChunkHTTPResponse) (dirExists mkdirOk w1 w2 : Bool)
    (h200 : r.statusCode = 200) (hdir : dirExists = true ∨ mkdirOk = true) :
    downloadCSVFile (.ok r) dirExists mkdirOk w1 = .ok r.body ∧
    downloadCSVFile (.ok r) dirExists mkdirOk w1 =
      downloadCSVFile (.ok r) dirExists mkdirOk w2 := by
  have hcond : ¬(¬ dirExists = true ∧ ¬ mkdirOk = true) := by
    rcases hdir with h | h
    · exact fun hc => hc.1 h
    · exact fun hc => hc.2 h
  refine ⟨?_, rfl⟩
  simp only [downloadCSVFile, h200, ne_eq, not_true_eq_false, if_false, ite_false]
  rw [if_neg hcond]

/-- C9 witness: a failed write still returns the downloaded body. -/
theorem c9_write_error_witness :
    downloadCSVFile (.ok ⟨200, "CSVDATA"⟩) true true false = .ok "CSVDATA" :=
  (c9_write_error_discarded ⟨200, "CSVDATA"⟩ true true false true rfl (Or.inl rfl)).1

/-- C10: every key of every parsed record is one of the header names, and
when a header name occurs more than once the record maps it to the value
of the LAST occurrence (earlier insertions are overwritten, Go map
semantics). -/
theorem c10_duplicate_header_last_wins (headers : List String) (rows : List (List String))
    (recs : List CSVRecord) (hok : processCSVGo (headers :: rows) = .ok recs) :
    (∀ rec ∈ recs, ∀ k v, recordFind rec k = some v → k ∈ headers) ∧
    (∀ (h1 : List String) (name : String) (h2 : List String)
       (r1 : List String) (v : String) (r2 : List String),
      headers = h1 ++ name :: h2 → name ∉ h2 → h1.length = r1.length →
      (r1 ++ v :: r2) ∈ rows →
      mkRecord headers (r1 ++ v :: r2) ∈ recs ∧
      recordFind (mkRecord headers (r1 ++ v :: r2)) name = some v) := by
  have hiff := (processRows_ok_iff headers rows recs).mp hok
  refine ⟨?_, ?_⟩
  · intro rec hmem k v hfind
    rw [hiff.2] at hmem
    obtain ⟨row, hrow, hrec⟩ := List.mem_map.mp hmem
    rw [← hrec] at hfind
    have hpair := recordFind_mem _ _ _ hfind
    exact (List.of_mem_zip hpair).1
  · intro h1 name h2 r1 v r2 hH hnot hlen hrowmem
    constructor
    · rw [hiff.2]
      exact List.mem_map_of_mem _ hrowmem
    · rw [hH]
      unfold mkRecord
      have hzip : (h1 ++ name :: h2).zip (r1 ++ v :: r2) =
          h1.zip r1 ++ (name, v) :: h2.zip r2 := by
        rw [List.zip_append hlen]
        rfl
      rw [hzip, recordFind_append]
      have hnone : recordFind (h2.zip r2) name = none := by
        apply recordFind_of_not_mem
        intro hmem2
        obtain ⟨⟨a, b⟩, hab, hfst⟩ := List.mem_map.mp hmem2
        exact hnot (hfst ▸ (List.of_mem_zip hab).1)
      rw [recordFind, hnone]
      simp

/-- C10 witness: a duplicated header column maps to the later value. -/
theorem c10_duplicate_header_witness :
    recordFind (mkRecord ["a", "a"] ["1", "2"]) "a" = some "2" :=
  ((c10_duplicate_header_last_wins ["a", "a"] [["1", "2"]]
      [mkRecord ["a", "a"] ["1", "2"]] rfl).2
    ["a"] "a" [] ["1"] "2" [] rfl (by simp) rfl (by simp)).2

end SnykExport
